import Mathlib

/-!
Verification of the clawdbot-secure core: the AEAD envelope codec
(`encryption.ts`), the encrypted object store (`storage.ts`) and the
authentication gate (`middleware/security.ts`).

Modelling conventions:
- Raw byte strings are `List (Fin 256)`.
- The external cryptographic primitives used by the codec (PBKDF2 from
  `node:crypto`, the AES-256-GCM cipher, base64 and UTF-8 transcoding from
  `Buffer`) are not part of this repository; they are abstracted as a
  `CryptoPrim` structure, and theorems about the codec take the standard
  contracts of those primitives (round-trip laws) as hypotheses.  A concrete
  reference instantiation (`refPrim`) satisfying all of the contracts is
  provided so that every theorem can be exercised on closed inputs; its
  cipher is a keystream cipher with a checked tag, matching GCM's shape
  (ciphertext has exactly the plaintext's length, plus a 16-byte tag).
- `JSON.stringify`/`JSON.parse` of the envelope record are likewise external;
  they are abstracted as an `EnvCodec` with a round-trip contract, and a
  concrete instantiation (`refEnvCodec`) is provided.
- In the source's `decrypt`, the `try`/`catch` that produces the opaque
  tamper error wraps only `decipher.update`/`decipher.final`;
  `crypto.createDecipheriv` and `decipher.setAuthTag` sit outside it and
  throw their own cause-revealing exceptions when the decoded nonce or tag
  has a length the GCM API rejects (Node: "Invalid initialization vector"
  for an empty IV, "Invalid authentication tag length: N" for a tag length
  other than 4, 8 or 12–16 bytes).  Those documented API validation rules
  are the `gcmIvOk`/`gcmTagLengthOk` predicates, and their failures are the
  distinct `invalidIV`/`invalidAuthTagLength` errors of the model.
- The filesystem (`node:fs/promises`) is a flat map from path to file
  content, together with a set of permission-denied paths and a directory
  listing map.  Errors thrown by `fs` calls are `Except.error` values;
  `try`/`catch` in the source becomes a `match` on the `Except`.  Directory
  creation (`fs.mkdir`) has no observable effect in this model because no
  modelled operation reads directories created by it.
- `process.exit(1)` in a startup gate is modelled as `Except.error .fatalConfig`:
  the process has no continuation, so no state results from a failed
  initialization.
-/

/-- Raw bytes: each entry is one octet. -/
abbrev Bytes : Type := List (Fin 256)

/-- External primitives consumed by `encryption.ts` from `node:crypto` and
`Buffer`.  `gcmEnc key iv plaintext` returns `(ciphertext, authTag)`;
`gcmDec key iv authTag ciphertext` returns the plaintext, or `none` when
tag verification fails (for any reason). -/
structure CryptoPrim where
  pbkdf2 : String → Bytes → Bytes
  gcmEnc : Bytes → Bytes → Bytes → Bytes × Bytes
  gcmDec : Bytes → Bytes → Bytes → Bytes → Option Bytes
  b64Encode : Bytes → String
  b64Decode : String → Bytes
  utf8Encode : String → Bytes
  utf8Decode : Bytes → String

/-- The single supported algorithm tag (`const ALGORITHM = 'aes-256-gcm'`). -/
def ALGORITHM : String := "aes-256-gcm"

/-- `const KEY_LENGTH = 32`. -/
def KEY_LENGTH : Nat := 32

/-- `const IV_LENGTH = 12`. -/
def IV_LENGTH : Nat := 12

/-- `const SALT_LENGTH = 32`. -/
def SALT_LENGTH : Nat := 32

/-- `const AUTH_TAG_LENGTH = 16`. -/
def AUTH_TAG_LENGTH : Nat := 16

/-- `const PBKDF2_ITERATIONS = 100000`. -/
def PBKDF2_ITERATIONS : Nat := 100000

/-- `deriveKey(password, salt)`: PBKDF2 key derivation from `encryption.ts`. -/
def deriveKey (C : CryptoPrim) (password : String) (salt : Bytes) : Bytes :=
  C.pbkdf2 password salt

/-- The envelope record `EncryptedData` from `encryption.ts`: the `iv`,
`salt`, `authTag` and `ciphertext` fields hold base64 text. -/
structure EncryptedData where
  algorithm : String
  iv : String
  salt : String
  authTag : String
  ciphertext : String
deriving DecidableEq

/-- Every error surfaced by the codec, the store or the startup gates.  The
source throws plain `Error` values (and `process.exit(1)` for the fatal
startup gates); this inductive distinguishes them by site, mirroring the
distinct `throw` statements. -/
inductive OpError where
  | unsupportedAlgorithm (alg : String)
  | invalidIV
  | invalidAuthTagLength (n : Nat)
  | authenticationFailure
  | malformedEnvelope
  | notInitialized
  | fileNotFound
  | permissionDenied
  | fatalConfig
deriving DecidableEq

/-- `encrypt(plaintext, password)` from `encryption.ts`.  The two
`crypto.randomBytes` draws (salt, then iv) are explicit inputs `salt`, `iv`:
the function is deterministic in the randomness it consumed. -/
def encrypt (C : CryptoPrim) (salt iv : Bytes) (plaintext password : String) :
    EncryptedData :=
  let key := deriveKey C password salt
  let encres := C.gcmEnc key iv (C.utf8Encode plaintext)
  { algorithm := ALGORITHM
    iv := C.b64Encode iv
    salt := C.b64Encode salt
    authTag := C.b64Encode encres.2
    ciphertext := C.b64Encode encres.1 }

/-- Node's `createDecipheriv` nonce validation for GCM: any nonempty IV is
accepted; an empty IV throws "Invalid initialization vector". -/
def gcmIvOk (iv : Bytes) : Bool :=
  decide (0 < iv.length)

/-- Node's `setAuthTag` tag-length validation for GCM (without an explicit
`authTagLength` option): lengths 4, 8 and 12–16 are accepted; any other
length throws "Invalid authentication tag length: N". -/
def gcmTagLengthOk (n : Nat) : Bool :=
  decide (n = 4 ∨ n = 8 ∨ (12 ≤ n ∧ n ≤ 16))

/-- `decrypt(encrypted, password)` from `encryption.ts`: validates the
algorithm tag, base64-decodes the fields and re-derives the key; then
`crypto.createDecipheriv` and `decipher.setAuthTag` run OUTSIDE the
`try` block, so a nonce or tag whose decoded length the GCM API rejects
raises its own distinct, cause-revealing error; only `update`/`final`
are wrapped by the `try`/`catch` that maps every tag-verification
failure to the single opaque `authenticationFailure` error. -/
def decrypt (C : CryptoPrim) (encrypted : EncryptedData) (password : String) :
    Except OpError String :=
  if encrypted.algorithm ≠ ALGORITHM then
    Except.error (OpError.unsupportedAlgorithm encrypted.algorithm)
  else
    let iv := C.b64Decode encrypted.iv
    let salt := C.b64Decode encrypted.salt
    let authTag := C.b64Decode encrypted.authTag
    let key := deriveKey C password salt
    if gcmIvOk iv then
      if gcmTagLengthOk authTag.length then
        match C.gcmDec key iv authTag (C.b64Decode encrypted.ciphertext) with
        | some plaintext => Except.ok (C.utf8Decode plaintext)
        | none => Except.error OpError.authenticationFailure
      else Except.error (OpError.invalidAuthTagLength authTag.length)
    else Except.error OpError.invalidIV

/-- External serialization of the envelope record (`JSON.stringify` /
`JSON.parse` from the host runtime). -/
structure EnvCodec where
  envToJson : EncryptedData → String
  envFromJson : String → Option EncryptedData

/-- `encryptToJSON(plaintext, password)` from `encryption.ts`. -/
def encryptToJSON (C : CryptoPrim) (E : EnvCodec) (salt iv : Bytes)
    (plaintext password : String) : String :=
  E.envToJson (encrypt C salt iv plaintext password)

/-- `decryptFromJSON(json, password)` from `encryption.ts`; a parse failure
(`JSON.parse` throwing) is the distinct `malformedEnvelope` error. -/
def decryptFromJSON (C : CryptoPrim) (E : EnvCodec) (json password : String) :
    Except OpError String :=
  match E.envFromJson json with
  | none => Except.error OpError.malformedEnvelope
  | some encrypted => decrypt C encrypted password

/-- The filesystem visible to `storage.ts`: file contents by path, a set of
paths on which access is denied (permission errors), and the directory
table consulted by `fs.readdir`. -/
structure FS where
  files : String → Option String
  denied : String → Bool
  dirs : String → Option (List String)

/-- `fs.access(path)`: resolves when the file is reachable, rejects with a
permission or not-found error otherwise. -/
def fsAccess (fs : FS) (p : String) : Except OpError Unit :=
  if fs.denied p then Except.error OpError.permissionDenied
  else
    match fs.files p with
    | some _ => Except.ok ()
    | none => Except.error OpError.fileNotFound

/-- `fs.readFile(path, 'utf8')`. -/
def fsReadFile (fs : FS) (p : String) : Except OpError String :=
  if fs.denied p then Except.error OpError.permissionDenied
  else
    match fs.files p with
    | some content => Except.ok content
    | none => Except.error OpError.fileNotFound

/-- `fs.writeFile(path, content, 'utf8')`: full overwrite of the content at
`path`.  The preceding `fs.mkdir(dir, { recursive: true })` has no effect in
this flat model. -/
def fsWriteFile (fs : FS) (p content : String) : FS :=
  { fs with files := fun q => if q = p then some content else fs.files q }

/-- `fs.unlink(path)`: fails when the file is absent or access is denied. -/
def fsUnlink (fs : FS) (p : String) : Except OpError FS :=
  if fs.denied p then Except.error OpError.permissionDenied
  else
    match fs.files p with
    | some _ =>
      Except.ok { fs with files := fun q => if q = p then none else fs.files q }
    | none => Except.error OpError.fileNotFound

/-- `fs.readdir(dirPath)`: the entry list, or an error when the directory is
unreadable or absent. -/
def fsReaddir (fs : FS) (d : String) : Except OpError (List String) :=
  match fs.dirs d with
  | some entries => Except.ok entries
  | none => Except.error OpError.fileNotFound

/-- The module state of `storage.ts`: the mutable `SECRET_KEY` binding
(`DATA_DIR` is not consulted by any modelled operation). -/
structure StorageState where
  secretKey : Option String

/-- The state before `initializeStorage` has run: `SECRET_KEY` is unset. -/
def uninitializedStorage : StorageState := { secretKey := none }

/-- `initializeStorage()` from `storage.ts`: reads `CLAWD_SECRET_KEY` from the
environment (the explicit `envKey` input) and calls `process.exit(1)` — no
surviving state — when it is missing or shorter than 32 characters. -/
def initializeStorage (envKey : Option String) : Except OpError StorageState :=
  match envKey with
  | none => Except.error OpError.fatalConfig
  | some k =>
    if k.length < 32 then Except.error OpError.fatalConfig
    else Except.ok { secretKey := some k }

/-- `ensureKey()` from `storage.ts`: throws when storage was not initialized. -/
def ensureKey (st : StorageState) : Except OpError String :=
  match st.secretKey with
  | some k => Except.ok k
  | none => Except.error OpError.notInitialized

/-- The JavaScript `filePath.endsWith('.enc')` test, on the character
sequences of the strings. -/
def strEndsWith (s suffix : String) : Bool :=
  List.isSuffixOf suffix.data s.data

/-- The path-normalization rule used by every file operation of
`storage.ts`: `filePath.endsWith('.enc') ? filePath : filePath + '.enc'`. -/
def normalizeEnc (filePath : String) : String :=
  if strEndsWith filePath ".enc" then filePath else filePath ++ ".enc"

/-- `writeEncrypted(filePath, data)` from `storage.ts`. -/
def writeEncrypted (C : CryptoPrim) (E : EnvCodec) (st : StorageState) (fs : FS)
    (salt iv : Bytes) (filePath data : String) : Except OpError FS :=
  match ensureKey st with
  | Except.error e => Except.error e
  | Except.ok key =>
    Except.ok (fsWriteFile fs (normalizeEnc filePath)
      (encryptToJSON C E salt iv data key))

/-- `readEncrypted(filePath)` from `storage.ts`. -/
def readEncrypted (C : CryptoPrim) (E : EnvCodec) (st : StorageState) (fs : FS)
    (filePath : String) : Except OpError String :=
  match ensureKey st with
  | Except.error e => Except.error e
  | Except.ok key =>
    match fsReadFile fs (normalizeEnc filePath) with
    | Except.error e => Except.error e
    | Except.ok encrypted => decryptFromJSON C E encrypted key

/-- `writeEncryptedJSON(filePath, data)` from `storage.ts`; `Jstr` is the
host `JSON.stringify(data, null, 2)` for the value type. -/
def writeEncryptedJSON {α : Type} (C : CryptoPrim) (E : EnvCodec)
    (Jstr : α → String) (st : StorageState) (fs : FS) (salt iv : Bytes)
    (filePath : String) (data : α) : Except OpError FS :=
  writeEncrypted C E st fs salt iv filePath (Jstr data)

/-- `readEncryptedJSON(filePath)` from `storage.ts`; `Jparse` is the host
`JSON.parse` for the value type, failing on malformed text. -/
def readEncryptedJSON {α : Type} (C : CryptoPrim) (E : EnvCodec)
    (Jparse : String → Option α) (st : StorageState) (fs : FS)
    (filePath : String) : Except OpError α :=
  match readEncrypted C E st fs filePath with
  | Except.error e => Except.error e
  | Except.ok json =>
    match Jparse json with
    | some v => Except.ok v
    | none => Except.error OpError.malformedEnvelope

/-- `encryptedFileExists(filePath)` from `storage.ts`: the `try`/`catch`
around `fs.access` turns every failure into `false`. -/
def encryptedFileExists (fs : FS) (filePath : String) : Bool :=
  match fsAccess fs (normalizeEnc filePath) with
  | Except.ok _ => true
  | Except.error _ => false

/-- `deleteEncrypted(filePath)` from `storage.ts`: plain `fs.unlink`, no
`try`/`catch`, and no `ensureKey` call. -/
def deleteEncrypted (fs : FS) (filePath : String) : Except OpError FS :=
  fsUnlink fs (normalizeEnc filePath)

/-- `listEncryptedFiles(dirPath)` from `storage.ts`: the `try`/`catch`
around `fs.readdir` turns every failure into the empty list. -/
def listEncryptedFiles (fs : FS) (dirPath : String) : List String :=
  match fsReaddir fs dirPath with
  | Except.ok files => files.filter (fun f => strEndsWith f ".enc")
  | Except.error _ => []

/-- Character-by-character string comparison with an early exit, together
with the number of character comparisons performed: the cost model of the
JavaScript `!==` operator the middleware actually executes.  A constant-time
comparison would perform a number of comparisons independent of where the
first mismatch lies. -/
def eqCostAux : List Char → List Char → Bool × Nat
  | [], [] => (true, 0)
  | [], _ :: _ => (false, 0)
  | _ :: _, [] => (false, 0)
  | a :: as, b :: bs =>
    if a = b then
      let r := eqCostAux as bs
      (r.1, r.2 + 1)
    else (false, 1)

/-- The `token !== GATEWAY_TOKEN` comparison of `security.ts` under the
early-exit cost model: result and number of character comparisons. -/
def jsStrEqSteps (s t : String) : Bool × Nat :=
  eqCostAux s.data t.data

/-- Outcome of the middleware: pass the request through, or answer 401. -/
inductive AuthDecision where
  | proceed
  | unauthorized401
deriving DecidableEq

/-- `authenticationMiddleware` from `security.ts`:
`if (!token || token !== GATEWAY_TOKEN) { 401 } else { next() }` — a missing
or empty header is falsy, and the equality test is the plain JavaScript
string comparison modelled by `jsStrEqSteps`. -/
def authenticationMiddleware (gatewayToken : String) (header : Option String) :
    AuthDecision :=
  match header with
  | none => AuthDecision.unauthorized401
  | some token =>
    if token = "" then AuthDecision.unauthorized401
    else if (jsStrEqSteps token gatewayToken).1 then AuthDecision.proceed
    else AuthDecision.unauthorized401

/-- Byte-wise xor, used by the reference keystream cipher. -/
def byteXor (a b : Fin 256) : Fin 256 :=
  ⟨a.val ^^^ b.val, Nat.xor_lt_two_pow (n := 8) a.isLt b.isLt⟩

/-- Sum of the byte values of a byte string. -/
def bsum (l : Bytes) : Nat := l.foldl (fun a b => a + b.val) 0

/-- Keystream byte at position `i` of the reference cipher, a function of
the key and the nonce. -/
def refKeystream (key iv : Bytes) (i : Nat) : Fin 256 :=
  ⟨(bsum key + 2 * bsum iv + i) % 256, Nat.mod_lt _ (by norm_num)⟩

/-- Xor a byte string against the reference keystream starting at
position `i`. -/
def xorStreamFrom (key iv : Bytes) : Nat → Bytes → Bytes
  | _, [] => []
  | i, b :: rest => byteXor b (refKeystream key iv i) :: xorStreamFrom key iv (i + 1) rest

/-- The 16-byte tag of the reference cipher, a function of key, nonce and
ciphertext (as GCM's tag is). -/
def refTag (key iv ct : Bytes) : Bytes :=
  List.replicate 16 ⟨(bsum key + bsum iv + bsum ct) % 256, Nat.mod_lt _ (by norm_num)⟩

/-- Reference cipher, encryption direction: a keystream cipher, so the
ciphertext has exactly the plaintext's length (as in GCM). -/
def refGcmEnc (key iv pt : Bytes) : Bytes × Bytes :=
  (xorStreamFrom key iv 0 pt, refTag key iv (xorStreamFrom key iv 0 pt))

/-- Reference cipher, decryption direction: verify the tag, then undo the
keystream; `none` on tag mismatch. -/
def refGcmDec (key iv tag ct : Bytes) : Option Bytes :=
  if tag = refTag key iv ct then some (xorStreamFrom key iv 0 ct) else none

/-- One byte from a character's code point. -/
def byteOfChar (c : Char) : Fin 256 :=
  ⟨c.toNat % 256, Nat.mod_lt _ (by norm_num)⟩

/-- Reference byte-to-text encoding (in the base64 role): one character per
byte. -/
def refB64Encode (bs : Bytes) : String :=
  String.mk (bs.map (fun b => Char.ofNat b.val))

/-- Reference text-to-byte decoding (in the base64 role); total, as
`Buffer.from(text, 'base64')` is. -/
def refB64Decode (s : String) : Bytes :=
  s.data.map byteOfChar

/-- Three little-endian base-256 digits of a character's code point (every
code point is below 2^24). -/
def charBytes (c : Char) : Bytes :=
  [⟨c.toNat % 256, Nat.mod_lt _ (by norm_num)⟩,
   ⟨c.toNat / 256 % 256, Nat.mod_lt _ (by norm_num)⟩,
   ⟨c.toNat / 65536 % 256, Nat.mod_lt _ (by norm_num)⟩]

/-- Reference text-to-bytes transcoding (in the UTF-8 role): three bytes
per character. -/
def utf8EncChars : List Char → Bytes
  | [] => []
  | c :: rest => charBytes c ++ utf8EncChars rest

/-- Reference bytes-to-text transcoding (in the UTF-8 role): total, as
`Buffer.prototype.toString('utf8')` is; trailing incomplete groups are
dropped. -/
def utf8DecBytes : Bytes → List Char
  | b0 :: b1 :: b2 :: rest =>
    Char.ofNat (b0.val + 256 * b1.val + 65536 * b2.val) :: utf8DecBytes rest
  | _ => []

/-- Reference string-to-bytes encoding. -/
def refUtf8Encode (s : String) : Bytes := utf8EncChars s.data

/-- Reference bytes-to-string decoding. -/
def refUtf8Decode (bs : Bytes) : String := String.mk (utf8DecBytes bs)

/-- Reference key-derivation function: depends on both password and salt
and yields a 32-byte key, as PBKDF2-SHA256 with a 32-byte output does. -/
def refPbkdf2 (password : String) (salt : Bytes) : Bytes :=
  (refUtf8Encode password ++ salt ++ List.replicate 32 (0 : Fin 256)).take 32

/-- The reference instantiation of all external cryptographic primitives. -/
def refPrim : CryptoPrim :=
  { pbkdf2 := refPbkdf2
    gcmEnc := refGcmEnc
    gcmDec := refGcmDec
    b64Encode := refB64Encode
    b64Decode := refB64Decode
    utf8Encode := refUtf8Encode
    utf8Decode := refUtf8Decode }

/-- A second, inequivalent instantiation of the primitives, used to show
that certain code paths consult no primitive at all. -/
def trivPrim : CryptoPrim :=
  { pbkdf2 := fun _ _ => []
    gcmEnc := fun _ _ pt => (pt, [])
    gcmDec := fun _ _ tag ct => if tag = [] then some ct else none
    b64Encode := fun _ => ""
    b64Decode := fun _ => []
    utf8Encode := fun _ => []
    utf8Decode := fun _ => "" }

/-- Length-prefixed field encoding for the reference envelope serializer:
the field's length in unary (as 'a' marks), a 'b' separator, then the
field itself. -/
def encFieldL (l : List Char) : List Char :=
  List.replicate l.length 'a' ++ 'b' :: l

/-- Decode one length-prefixed field, returning the field and the rest. -/
def decFieldAux (n : Nat) (l : List Char) : Option (List Char × List Char) :=
  match l.drop n with
  | 'b' :: rest => some (rest.take n, rest.drop n)
  | _ => none

/-- Decode one length-prefixed field from the front of `l`. -/
def decFieldL (l : List Char) : Option (List Char × List Char) :=
  decFieldAux ((l.takeWhile (fun c => c == 'a')).length) l

/-- Reference envelope serializer (in the `JSON.stringify` role): the five
fields, length-prefixed, in declaration order. -/
def refEnvToJson (e : EncryptedData) : String :=
  String.mk (encFieldL e.algorithm.data ++ encFieldL e.iv.data ++
    encFieldL e.salt.data ++ encFieldL e.authTag.data ++ encFieldL e.ciphertext.data)

/-- Reference envelope deserializer (in the `JSON.parse` role). -/
def refEnvFromJson (s : String) : Option EncryptedData :=
  match decFieldL s.data with
  | none => none
  | some (a, r1) =>
    match decFieldL r1 with
    | none => none
    | some (i, r2) =>
      match decFieldL r2 with
      | none => none
      | some (sl, r3) =>
        match decFieldL r3 with
        | none => none
        | some (t, r4) =>
          match decFieldL r4 with
          | none => none
          | some (c, _) =>
            some { algorithm := String.mk a, iv := String.mk i,
                   salt := String.mk sl, authTag := String.mk t,
                   ciphertext := String.mk c }

/-- The reference envelope serializer pair. -/
def refEnvCodec : EnvCodec :=
  { envToJson := refEnvToJson, envFromJson := refEnvFromJson }

/-- An empty filesystem. -/
def emptyFS : FS :=
  { files := fun _ => none, denied := fun _ => false, dirs := fun _ => none }

/-- A filesystem holding one stored envelope file. -/
def fsAlice : FS :=
  { files := fun q => if q = "data/users/alice.enc" then some "payload" else none
    denied := fun _ => false
    dirs := fun _ => none }

/-- A filesystem on which every access is permission-denied. -/
def fsDeniedAll : FS :=
  { files := fun _ => some "x", denied := fun _ => true, dirs := fun _ => none }

/-- A 32-character passphrase used by closed instances. -/
def keyA : String := "0123456789abcdef0123456789abcdef"

/-- A storage state bound to `keyA`, as left by a successful
`initializeStorage`. -/
def stA : StorageState := { secretKey := some keyA }

/-- Xor against the same keystream byte twice gives the byte back. -/
theorem byteXor_cancel (b s : Fin 256) : byteXor (byteXor b s) s = b := by
  apply Fin.ext
  show b.val ^^^ s.val ^^^ s.val = b.val
  rw [Nat.xor_assoc, Nat.xor_self, Nat.xor_zero]

/-- The reference keystream transform is an involution. -/
theorem xorStreamFrom_invol (key iv : Bytes) :
    ∀ (i : Nat) (p : Bytes), xorStreamFrom key iv i (xorStreamFrom key iv i p) = p := by
  intro i p
  induction p generalizing i with
  | nil => rfl
  | cons b rest ih =>
    simp [xorStreamFrom, byteXor_cancel, ih]

/-- The reference cipher satisfies the GCM round-trip contract. -/
theorem refPrim_gcm_roundtrip :
    ∀ (key iv pt : Bytes),
      refPrim.gcmDec key iv (refPrim.gcmEnc key iv pt).2 (refPrim.gcmEnc key iv pt).1 = some pt := by
  intro key iv pt
  show refGcmDec key iv (refGcmEnc key iv pt).2 (refGcmEnc key iv pt).1 = some pt
  simp [refGcmDec, refGcmEnc, xorStreamFrom_invol]

/-- The reference cipher's tag is always 16 bytes, as GCM's `getAuthTag`
output is. -/
theorem refPrim_tag_length :
    ∀ (key iv pt : Bytes), ((refPrim.gcmEnc key iv pt).2).length = AUTH_TAG_LENGTH := by
  intro key iv pt
  show ((refGcmEnc key iv pt).2).length = AUTH_TAG_LENGTH
  simp [refGcmEnc, refTag, AUTH_TAG_LENGTH]

set_option maxRecDepth 4096 in
/-- Encoding one byte as a character and reading its code point back is the
identity on byte values. -/
theorem charOfNat_toNat_byte : ∀ b : Fin 256, (Char.ofNat b.val).toNat = b.val := by
  decide

/-- The reference base64 pair satisfies the round-trip contract. -/
theorem refPrim_b64_roundtrip :
    ∀ bs : Bytes, refPrim.b64Decode (refPrim.b64Encode bs) = bs := by
  intro bs
  show refB64Decode (refB64Encode bs) = bs
  unfold refB64Decode refB64Encode
  induction bs with
  | nil => rfl
  | cons b rest ih =>
    simp only [List.map_cons, List.map] at ih ⊢
    refine congrArg₂ List.cons ?_ ih
    apply Fin.ext
    show (Char.ofNat b.val).toNat % 256 = b.val
    rw [charOfNat_toNat_byte, Nat.mod_eq_of_lt b.isLt]

/-- Every character's code point fits into three base-256 digits. -/
theorem char_toNat_lt (c : Char) : c.toNat < 16777216 := by
  have h := c.valid
  rcases h with h1 | ⟨h1, h2⟩
  · simp [Char.toNat]
    omega
  · simp [Char.toNat]
    omega

/-- Decoding the three-digit encoding of a character list is the identity. -/
theorem utf8DecBytes_enc : ∀ cs : List Char, utf8DecBytes (utf8EncChars cs) = cs := by
  intro cs
  induction cs with
  | nil => rfl
  | cons c rest ih =>
    show Char.ofNat (c.toNat % 256 + 256 * (c.toNat / 256 % 256) +
        65536 * (c.toNat / 65536 % 256)) :: utf8DecBytes (utf8EncChars rest) = c :: rest
    rw [ih]
    have hlt : c.toNat < 16777216 := char_toNat_lt c
    have harith :
        c.toNat % 256 + 256 * (c.toNat / 256 % 256) + 65536 * (c.toNat / 65536 % 256) = c.toNat := by
      omega
    rw [harith, Char.ofNat_toNat]

/-- The reference UTF-8 pair satisfies the round-trip contract. -/
theorem refPrim_utf8_roundtrip :
    ∀ s : String, refPrim.utf8Decode (refPrim.utf8Encode s) = s := by
  intro s
  show refUtf8Decode (refUtf8Encode s) = s
  unfold refUtf8Decode refUtf8Encode
  rw [utf8DecBytes_enc]

/-- A run of 'a' marks stops exactly at the 'b' separator. -/
theorem takeWhile_marks (n : Nat) (l : List Char) :
    List.takeWhile (fun c => c == 'a') (List.replicate n 'a' ++ 'b' :: l) =
      List.replicate n 'a' := by
  induction n with
  | zero => simp [List.takeWhile_cons]
  | succ m ih => simp [List.replicate_succ, List.takeWhile_cons, ih]

/-- Decoding one encoded field from the front of a longer text returns the
field and the remaining text. -/
theorem decFieldL_enc (s r : List Char) : decFieldL (encFieldL s ++ r) = some (s, r) := by
  have hshape : encFieldL s ++ r = List.replicate s.length 'a' ++ 'b' :: (s ++ r) := by
    unfold encFieldL
    rw [List.append_assoc, List.cons_append]
  rw [hshape]
  unfold decFieldL
  rw [takeWhile_marks s.length (s ++ r), List.length_replicate]
  unfold decFieldAux
  have hdrop : (List.replicate s.length 'a' ++ 'b' :: (s ++ r)).drop s.length = 'b' :: (s ++ r) := by
    have h := List.drop_left (List.replicate s.length 'a') ('b' :: (s ++ r))
    rwa [List.length_replicate] at h
  rw [hdrop]
  simp [List.take_left, List.drop_left]

/-- The reference envelope serializer satisfies the round-trip contract. -/
theorem refEnv_roundtrip :
    ∀ e : EncryptedData, refEnvCodec.envFromJson (refEnvCodec.envToJson e) = some e := by
  intro e
  show refEnvFromJson (refEnvToJson e) = some e
  unfold refEnvFromJson refEnvToJson
  have hlast : decFieldL (encFieldL e.ciphertext.data) = some (e.ciphertext.data, []) := by
    have h := decFieldL_enc e.ciphertext.data []
    rwa [List.append_nil] at h
  simp [decFieldL_enc, hlast]

/-- Appending the reserved suffix always yields a path that ends with it. -/
theorem strEndsWith_append_enc (p : String) : strEndsWith (p ++ ".enc") ".enc" = true := by
  unfold strEndsWith
  rw [String.data_append]
  simp [List.isSuffixOf_iff_suffix]

/-- Appending the nonempty reserved suffix changes the path. -/
theorem append_enc_ne (p : String) : p ++ ".enc" ≠ p := by
  intro h
  have hlen : (p ++ ".enc").data.length = p.data.length :=
    congrArg (fun s => s.data.length) h
  rw [String.data_append, List.length_append] at hlen
  have h4 : (".enc" : String).data.length = 4 := rfl
  omega

/-- Core round-trip computation of the codec: decrypting what `encrypt`
produced, with the same passphrase, recovers the plaintext whenever the
external primitives satisfy their contracts and the nonce has the shape
`crypto.randomBytes(IV_LENGTH)` always produces. -/
theorem decrypt_encrypt_eq_ok (C : CryptoPrim)
    (hgcm : ∀ key iv pt, C.gcmDec key iv (C.gcmEnc key iv pt).2 (C.gcmEnc key iv pt).1 = some pt)
    (hb64 : ∀ bs, C.b64Decode (C.b64Encode bs) = bs)
    (hutf8 : ∀ s, C.utf8Decode (C.utf8Encode s) = s)
    (htaglen : ∀ key iv pt, ((C.gcmEnc key iv pt).2).length = AUTH_TAG_LENGTH)
    (salt iv : Bytes) (hivlen : iv.length = IV_LENGTH) (b k : String) :
    decrypt C (encrypt C salt iv b k) k = Except.ok b := by
  have hivok : gcmIvOk iv = true := by
    unfold gcmIvOk
    rw [hivlen]
    decide
  have htagok : gcmTagLengthOk
      ((C.gcmEnc (deriveKey C k salt) iv (C.utf8Encode b)).2).length = true := by
    rw [htaglen]
    decide
  unfold decrypt encrypt
  simp only [ne_eq]
  rw [if_neg (by simp)]
  simp only [hb64]
  rw [if_pos hivok, if_pos htagok, hgcm]
  show Except.ok (C.utf8Decode (C.utf8Encode b)) = Except.ok b
  rw [hutf8]

/-- C1: for every plaintext string `b` and every passphrase `k` of at least
32 characters, decrypting the envelope produced by `encrypt(b, k)` with the
same passphrase `k` returns exactly `b`.  The external primitives are any
functions satisfying their standard contracts: the AEAD cipher inverts
itself under the same key, nonce and tag, and the base64 and UTF-8
transcoders round-trip.  (The length floor on `k` is the claim's
precondition; the codec round-trips for any passphrase.)  The two further
hypotheses state shapes every real execution has: the cipher's tag is
16 bytes (GCM's `getAuthTag`), and the nonce is the 12-byte output of
`crypto.randomBytes(IV_LENGTH)` — so they exclude no envelope that
`encrypt` actually produces. -/
theorem encrypt_decrypt_roundtrip (C : CryptoPrim)
    (hgcm : ∀ key iv pt, C.gcmDec key iv (C.gcmEnc key iv pt).2 (C.gcmEnc key iv pt).1 = some pt)
    (hb64 : ∀ bs, C.b64Decode (C.b64Encode bs) = bs)
    (hutf8 : ∀ s, C.utf8Decode (C.utf8Encode s) = s)
    (htaglen : ∀ key iv pt, ((C.gcmEnc key iv pt).2).length = AUTH_TAG_LENGTH)
    (salt iv : Bytes) (hivlen : iv.length = IV_LENGTH)
    (b k : String) (hk : 32 ≤ k.length) :
    decrypt C (encrypt C salt iv b k) k = Except.ok b :=
  decrypt_encrypt_eq_ok C hgcm hb64 hutf8 htaglen salt iv hivlen b k

/-- C1 witness: the round-trip evaluated on the reference primitives at a
concrete plaintext, passphrase, salt and 12-byte nonce. -/
theorem encrypt_decrypt_roundtrip_witness :
    32 ≤ keyA.length ∧
      (List.replicate 12 ((2 : Fin 256))).length = IV_LENGTH ∧
      decrypt refPrim
          (encrypt refPrim [(1 : Fin 256)] (List.replicate 12 ((2 : Fin 256)))
            "hello world" keyA) keyA =
        Except.ok "hello world" :=
  ⟨by decide, by decide,
    encrypt_decrypt_roundtrip refPrim refPrim_gcm_roundtrip refPrim_b64_roundtrip
      refPrim_utf8_roundtrip refPrim_tag_length [(1 : Fin 256)]
      (List.replicate 12 ((2 : Fin 256))) (by decide) "hello world" keyA (by decide)⟩

/-- C2 (amended): for every envelope carrying the supported algorithm tag
whose decoded nonce and authentication tag have lengths the GCM API
accepts (so that `createDecipheriv` and `setAuthTag` succeed and control
reaches the `try` block), any tag-verification failure — wrong passphrase,
corrupted ciphertext, corrupted same-length tag, wrong nonce, all of which
make `gcmDec` return `none` — yields the one constant
`authenticationFailure` error, which carries no data about the cause, and
no plaintext (not even the partial output of `update`) is returned. -/
theorem decrypt_auth_failure_opaque (C : CryptoPrim) (e : EncryptedData) (password : String)
    (halg : e.algorithm = ALGORITHM)
    (hiv : gcmIvOk (C.b64Decode e.iv) = true)
    (htag : gcmTagLengthOk (C.b64Decode e.authTag).length = true)
    (hfail : C.gcmDec (deriveKey C password (C.b64Decode e.salt)) (C.b64Decode e.iv)
      (C.b64Decode e.authTag) (C.b64Decode e.ciphertext) = none) :
    decrypt C e password = Except.error OpError.authenticationFailure := by
  unfold decrypt
  rw [if_neg (by simp [halg])]
  show (if gcmIvOk (C.b64Decode e.iv) then
      if gcmTagLengthOk (C.b64Decode e.authTag).length then
        (match C.gcmDec (deriveKey C password (C.b64Decode e.salt)) (C.b64Decode e.iv)
            (C.b64Decode e.authTag) (C.b64Decode e.ciphertext) with
          | some plaintext => Except.ok (C.utf8Decode plaintext)
          | none => Except.error OpError.authenticationFailure)
      else Except.error (OpError.invalidAuthTagLength (C.b64Decode e.authTag).length)
    else Except.error OpError.invalidIV) = Except.error OpError.authenticationFailure
  rw [if_pos hiv, if_pos htag, hfail]

/-- C2 witness: a concrete envelope with a 12-byte nonce and a 16-byte tag
that cannot verify under the reference cipher (the reference tag is a
constant sequence, the envelope's is not) yields the opaque
authentication error. -/
theorem decrypt_auth_failure_opaque_witness :
    (EncryptedData.mk "aes-256-gcm" "abcdefghijkl" "" "ABABABABABABABAB" "").algorithm =
        ALGORITHM ∧
      gcmIvOk (refPrim.b64Decode "abcdefghijkl") = true ∧
      gcmTagLengthOk (refPrim.b64Decode "ABABABABABABABAB").length = true ∧
      refPrim.gcmDec
        (deriveKey refPrim "p" (refPrim.b64Decode ""))
        (refPrim.b64Decode "abcdefghijkl") (refPrim.b64Decode "ABABABABABABABAB")
        (refPrim.b64Decode "") = none ∧
      decrypt refPrim (EncryptedData.mk "aes-256-gcm" "abcdefghijkl" "" "ABABABABABABABAB" "")
          "p" =
        Except.error OpError.authenticationFailure :=
  ⟨rfl, by decide, by decide, by decide,
    decrypt_auth_failure_opaque refPrim
      (EncryptedData.mk "aes-256-gcm" "abcdefghijkl" "" "ABABABABABABABAB" "") "p"
      rfl (by decide) (by decide) (by decide)⟩

/-- C2 counterexample: a corrupted authentication tag whose decoded length
the GCM API rejects makes the real `decrypt` fail from `setAuthTag`,
outside the `try`/`catch`, with an error that names the offending length —
not the single opaque authentication error; an empty nonce likewise fails
from `createDecipheriv` with its own distinct error.  The three failing
decryptions below produce three different error values, so the error does
distinguish the cause, refuting the claim as stated. -/
theorem decrypt_reveals_failure_cause :
    decrypt refPrim (EncryptedData.mk "aes-256-gcm" "abcdefghijkl" "" "" "") "p" =
        Except.error (OpError.invalidAuthTagLength 0) ∧
      decrypt refPrim (EncryptedData.mk "aes-256-gcm" "abcdefghijkl" "" "x" "") "p" =
        Except.error (OpError.invalidAuthTagLength 1) ∧
      decrypt refPrim (EncryptedData.mk "aes-256-gcm" "" "" "" "") "p" =
        Except.error OpError.invalidIV ∧
      OpError.invalidAuthTagLength 0 ≠ OpError.authenticationFailure ∧
      OpError.invalidAuthTagLength 0 ≠ OpError.invalidAuthTagLength 1 :=
  ⟨rfl, rfl, rfl, by decide, by decide⟩

/-- C4: an envelope whose algorithm field is not the single supported value
makes `decrypt` fail with `UnsupportedAlgorithm`, and the result is the
same for any choice of cryptographic primitives and any passphrase — no
key derivation or other cryptographic work influences it. -/
theorem decrypt_unsupported_algorithm (C C' : CryptoPrim) (e : EncryptedData) (p p' : String)
    (halg : e.algorithm ≠ ALGORITHM) :
    decrypt C e p = Except.error (OpError.unsupportedAlgorithm e.algorithm) ∧
      decrypt C e p = decrypt C' e p' := by
  constructor
  · unfold decrypt
    rw [if_pos (by simp [halg])]
  · unfold decrypt
    rw [if_pos (by simp [halg]), if_pos (by simp [halg])]

/-- C4 witness: the spec's own example, an envelope retagged as
`aes-128-cbc`, rejected identically under two different primitive
instantiations and passphrases. -/
theorem decrypt_unsupported_algorithm_witness :
    (EncryptedData.mk "aes-128-cbc" "" "" "" "").algorithm ≠ ALGORITHM ∧
      decrypt refPrim (EncryptedData.mk "aes-128-cbc" "" "" "" "") "pw" =
        Except.error (OpError.unsupportedAlgorithm "aes-128-cbc") ∧
      decrypt refPrim (EncryptedData.mk "aes-128-cbc" "" "" "" "") "pw" =
        decrypt trivPrim (EncryptedData.mk "aes-128-cbc" "" "" "" "") "pw2" :=
  ⟨by decide,
    (decrypt_unsupported_algorithm refPrim trivPrim
      (EncryptedData.mk "aes-128-cbc" "" "" "" "") "pw" "pw2" (by decide)).1,
    (decrypt_unsupported_algorithm refPrim trivPrim
      (EncryptedData.mk "aes-128-cbc" "" "" "" "") "pw" "pw2" (by decide)).2⟩

/-- A 32-character configured gateway token for the comparison probes. -/
def gwTok : String := String.mk (List.replicate 32 'a')

/-- A candidate token differing from `gwTok` at the first character. -/
def probeA : String := String.mk ('b' :: List.replicate 31 'a')

/-- A candidate token differing from `gwTok` only at the last character. -/
def probeB : String := String.mk (List.replicate 31 'a' ++ ['b'])

set_option maxRecDepth 8192 in
/-- C3 (code bug): the middleware's own comment claims a constant-time
comparison, but the comparison it executes is the plain JavaScript string
inequality.  Under the early-exit cost model of that operator, two rejected
candidate tokens of equal length are distinguished by the number of
character comparisons performed (1 when the first character differs, 32
when only the last does), so the gate's observable timing leaks the
position of the first mismatch — strictly more than equality. -/
theorem middleware_comparison_not_constant_time :
    authenticationMiddleware gwTok (some probeA) = AuthDecision.unauthorized401 ∧
      authenticationMiddleware gwTok (some probeB) = AuthDecision.unauthorized401 ∧
      probeA ≠ probeB ∧
      probeA.length = probeB.length ∧
      (jsStrEqSteps probeA gwTok).2 = 1 ∧
      (jsStrEqSteps probeB gwTok).2 = 32 := by
  decide

/-- C5 (amended): the startup gate fails fatally when the configured
passphrase is absent or shorter than 32 characters, and every store
operation that reads or writes stored data (write, read, and their JSON
variants) fails with the not-initialized error when no successful
`initializeStorage` preceded it. -/
theorem storage_fail_closed {α : Type} (C : CryptoPrim) (E : EnvCodec)
    (Jstr : α → String) (Jparse : String → Option α)
    (fs : FS) (salt iv : Bytes) (p d : String) (v : α) (k : String)
    (hk : k.length < 32) :
    initializeStorage none = Except.error OpError.fatalConfig ∧
      initializeStorage (some k) = Except.error OpError.fatalConfig ∧
      writeEncrypted C E uninitializedStorage fs salt iv p d =
        Except.error OpError.notInitialized ∧
      readEncrypted C E uninitializedStorage fs p =
        Except.error OpError.notInitialized ∧
      writeEncryptedJSON C E Jstr uninitializedStorage fs salt iv p v =
        Except.error OpError.notInitialized ∧
      readEncryptedJSON C E Jparse uninitializedStorage fs p =
        Except.error OpError.notInitialized := by
  refine ⟨rfl, ?_, rfl, rfl, rfl, rfl⟩
  simp [initializeStorage, hk]

/-- C5 witness: the fail-closed behaviour evaluated at a concrete
too-short passphrase and a concrete data operation. -/
theorem storage_fail_closed_witness :
    ("short" : String).length < 32 ∧
      initializeStorage (some "short") = Except.error OpError.fatalConfig ∧
      readEncrypted refPrim refEnvCodec uninitializedStorage emptyFS "data/users/alice" =
        Except.error OpError.notInitialized :=
  ⟨by decide,
    (storage_fail_closed refPrim refEnvCodec (fun s => s) (fun s => some (s : String))
      emptyFS [] [] "data/users/alice" "d" "v" "short" (by decide)).2.1,
    (storage_fail_closed refPrim refEnvCodec (fun s => s) (fun s => some (s : String))
      emptyFS [] [] "data/users/alice" "d" "v" "short" (by decide)).2.2.2.1⟩

/-- C5 counterexample: `deleteEncrypted` is a store operation, it is invoked
here without any prior `initializeStorage` (the storage state plays no role
in it at all), and it succeeds — removing the stored envelope — instead of
failing.  This refutes the claim that every store operation invoked without
a successful prior initialization fails rather than touching data. -/
theorem delete_without_initialize_succeeds :
    (deleteEncrypted fsAlice "data/users/alice").isOk = true ∧
      (Except.toOption (deleteEncrypted fsAlice "data/users/alice")).map
        (fun fs2 => fs2.files "data/users/alice.enc") = some none := by
  decide

/-- C7: the path-normalization rule of the store leaves a path alone exactly
when it already ends with the reserved '.enc' suffix, appends the suffix
exactly when it does not, and is idempotent. -/
theorem normalizeEnc_spec (p : String) :
    (normalizeEnc p = p ↔ strEndsWith p ".enc" = true) ∧
      (normalizeEnc p = p ++ ".enc" ↔ strEndsWith p ".enc" = false) ∧
      normalizeEnc (normalizeEnc p) = normalizeEnc p := by
  by_cases h : strEndsWith p ".enc" = true
  · have h1 : normalizeEnc p = p := by rw [normalizeEnc, if_pos h]
    refine ⟨?_, ?_, ?_⟩
    · rw [h1, h]
      simp
    · rw [h1, h]
      constructor
      · intro heq
        exact absurd heq.symm (append_enc_ne p)
      · intro hff
        simp at hff
    · rw [h1]
      exact h1
  · have hf : strEndsWith p ".enc" = false := by
      cases hb : strEndsWith p ".enc"
      · rfl
      · exact absurd hb h
    have h1 : normalizeEnc p = p ++ ".enc" := by rw [normalizeEnc, if_neg h]
    refine ⟨?_, ?_, ?_⟩
    · rw [h1, hf]
      constructor
      · intro heq
        exact absurd heq (append_enc_ne p)
      · intro hft
        simp at hft
    · rw [h1, hf]
      simp
    · rw [h1, normalizeEnc, if_pos (strEndsWith_append_enc p)]

/-- C6: reading an object back immediately after writing it returns an
equal value: `readObject(p)` after `writeObject(p, v)` yields `v`, for any
value `v` on which the canonical serialization round-trips, under the
contracts of the external primitives (including GCM's 16-byte tag), with
the nonce of the shape `crypto.randomBytes(IV_LENGTH)` produces, on any
filesystem that does not deny access to the written path. -/
theorem store_roundtrip {α : Type} (C : CryptoPrim) (E : EnvCodec)
    (Jstr : α → String) (Jparse : String → Option α)
    (hgcm : ∀ key iv pt, C.gcmDec key iv (C.gcmEnc key iv pt).2 (C.gcmEnc key iv pt).1 = some pt)
    (hb64 : ∀ bs, C.b64Decode (C.b64Encode bs) = bs)
    (hutf8 : ∀ s, C.utf8Decode (C.utf8Encode s) = s)
    (henv : ∀ e, E.envFromJson (E.envToJson e) = some e)
    (htaglen : ∀ key iv pt, ((C.gcmEnc key iv pt).2).length = AUTH_TAG_LENGTH)
    (st : StorageState) (key : String) (hkey : st.secretKey = some key)
    (fs : FS) (salt iv : Bytes) (hivlen : iv.length = IV_LENGTH) (p : String) (v : α)
    (hv : Jparse (Jstr v) = some v)
    (hden : fs.denied (normalizeEnc p) = false)
    (fs2 : FS)
    (hw : writeEncryptedJSON C E Jstr st fs salt iv p v = Except.ok fs2) :
    readEncryptedJSON C E Jparse st fs2 p = Except.ok v := by
  have hek : ensureKey st = Except.ok key := by
    simp [ensureKey, hkey]
  have hw2 : writeEncryptedJSON C E Jstr st fs salt iv p v =
      Except.ok (fsWriteFile fs (normalizeEnc p) (encryptToJSON C E salt iv (Jstr v) key)) := by
    unfold writeEncryptedJSON writeEncrypted
    rw [hek]
  rw [hw2] at hw
  have hfs2 : fs2 = fsWriteFile fs (normalizeEnc p) (encryptToJSON C E salt iv (Jstr v) key) :=
    (Except.ok.inj hw).symm
  have hread : fsReadFile fs2 (normalizeEnc p) =
      Except.ok (encryptToJSON C E salt iv (Jstr v) key) := by
    rw [hfs2]
    simp [fsReadFile, fsWriteFile, hden]
  have hdec : decryptFromJSON C E (encryptToJSON C E salt iv (Jstr v) key) key =
      Except.ok (Jstr v) := by
    unfold decryptFromJSON encryptToJSON
    rw [henv]
    exact decrypt_encrypt_eq_ok C hgcm hb64 hutf8 htaglen salt iv hivlen (Jstr v) key
  have hre : readEncrypted C E st fs2 p = Except.ok (Jstr v) := by
    unfold readEncrypted
    rw [hek]
    show (match fsReadFile fs2 (normalizeEnc p) with
      | Except.error e => Except.error e
      | Except.ok encrypted => decryptFromJSON C E encrypted key) = Except.ok (Jstr v)
    rw [hread]
    exact hdec
  unfold readEncryptedJSON
  rw [hre]
  show (match Jparse (Jstr v) with
    | some w => Except.ok w
    | none => Except.error OpError.malformedEnvelope) = Except.ok v
  rw [hv]

/-- C6 witness: the store round-trip evaluated with the reference
primitives, writing the value "Alice" under the logical path
"data/users/alice" on an empty filesystem and reading it back. -/
theorem store_roundtrip_witness :
    stA.secretKey = some keyA ∧
      (List.replicate 12 ((3 : Fin 256))).length = IV_LENGTH ∧
      writeEncryptedJSON refPrim refEnvCodec (fun s => s) stA emptyFS []
          (List.replicate 12 ((3 : Fin 256))) "data/users/alice" "Alice" =
        Except.ok (fsWriteFile emptyFS (normalizeEnc "data/users/alice")
          (encryptToJSON refPrim refEnvCodec [] (List.replicate 12 ((3 : Fin 256)))
            "Alice" keyA)) ∧
      readEncryptedJSON refPrim refEnvCodec (fun s => some s) stA
          (fsWriteFile emptyFS (normalizeEnc "data/users/alice")
            (encryptToJSON refPrim refEnvCodec [] (List.replicate 12 ((3 : Fin 256)))
              "Alice" keyA)) "data/users/alice" =
        Except.ok "Alice" :=
  ⟨rfl, by decide, rfl,
    store_roundtrip refPrim refEnvCodec (fun s => s) (fun s => some s)
      refPrim_gcm_roundtrip refPrim_b64_roundtrip refPrim_utf8_roundtrip refEnv_roundtrip
      refPrim_tag_length stA keyA rfl emptyFS [] (List.replicate 12 ((3 : Fin 256)))
      (by decide) "data/users/alice" "Alice" rfl rfl
      (fsWriteFile emptyFS (normalizeEnc "data/users/alice")
        (encryptToJSON refPrim refEnvCodec [] (List.replicate 12 ((3 : Fin 256)))
          "Alice" keyA)) rfl⟩

/-- C8: the existence check returns false whenever the underlying access
check fails for any reason, and listing returns the empty list whenever the
directory cannot be read; both are total and throw nothing.  In contrast —
these two are the only operations that swallow errors — `readEncrypted`
propagates both not-found and permission errors, and `deleteEncrypted`
propagates not-found errors. -/
theorem exists_list_swallow_only (C : CryptoPrim) (E : EnvCodec) :
    (∀ (fs : FS) (p : String), (fsAccess fs (normalizeEnc p)).isOk = false →
        encryptedFileExists fs p = false) ∧
      (∀ (fs : FS) (d : String), fs.dirs d = none → listEncryptedFiles fs d = []) ∧
      (∀ (st : StorageState) (key : String) (fs : FS) (p : String),
        st.secretKey = some key → fs.files (normalizeEnc p) = none →
        fs.denied (normalizeEnc p) = false →
        readEncrypted C E st fs p = Except.error OpError.fileNotFound) ∧
      (∀ (st : StorageState) (key : String) (fs : FS) (p : String),
        st.secretKey = some key → fs.denied (normalizeEnc p) = true →
        readEncrypted C E st fs p = Except.error OpError.permissionDenied) ∧
      (∀ (fs : FS) (p : String), fs.files (normalizeEnc p) = none →
        fs.denied (normalizeEnc p) = false →
        deleteEncrypted fs p = Except.error OpError.fileNotFound) := by
  refine ⟨?_, ?_, ?_, ?_, ?_⟩
  · intro fs p h
    unfold encryptedFileExists
    cases hacc : fsAccess fs (normalizeEnc p) with
    | ok u =>
      rw [hacc] at h
      simp [Except.isOk, Except.toBool] at h
    | error e => rfl
  · intro fs d h
    simp [listEncryptedFiles, fsReaddir, h]
  · intro st key fs p hkey hmiss hden
    simp [readEncrypted, ensureKey, hkey, fsReadFile, hden, hmiss]
  · intro st key fs p hkey hden
    simp [readEncrypted, ensureKey, hkey, fsReadFile, hden]
  · intro fs p hmiss hden
    simp [deleteEncrypted, fsUnlink, hden, hmiss]

/-- C8 witness: the swallowing behaviour evaluated on concrete
filesystems: a missing file reports non-existence, an absent directory
lists as empty, and deletion of a missing file errors. -/
theorem exists_list_swallow_only_witness :
    encryptedFileExists emptyFS "data/missing" = false ∧
      listEncryptedFiles emptyFS "data" = [] ∧
      deleteEncrypted emptyFS "data/missing" = Except.error OpError.fileNotFound :=
  ⟨(exists_list_swallow_only refPrim refEnvCodec).1 emptyFS "data/missing" (by decide),
    (exists_list_swallow_only refPrim refEnvCodec).2.1 emptyFS "data" rfl,
    (exists_list_swallow_only refPrim refEnvCodec).2.2.2.2 emptyFS "data/missing" rfl rfl⟩

/-- C9 (amended): two runs of `encrypt` on the same plaintext and
passphrase with distinct random salts and distinct random nonces yield
envelopes with different `salt` fields and different `iv` fields; their
`ciphertext` fields coincide exactly when the cipher's raw outputs
coincide — which does happen, in particular, for the empty plaintext,
whose GCM ciphertext is empty in both runs. -/
theorem encrypt_fresh_randomness (C : CryptoPrim)
    (hb64 : ∀ bs, C.b64Decode (C.b64Encode bs) = bs)
    (salt1 iv1 salt2 iv2 : Bytes) (b k : String)
    (hs : salt1 ≠ salt2) (hi : iv1 ≠ iv2) :
    (encrypt C salt1 iv1 b k).salt ≠ (encrypt C salt2 iv2 b k).salt ∧
      (encrypt C salt1 iv1 b k).iv ≠ (encrypt C salt2 iv2 b k).iv ∧
      ((encrypt C salt1 iv1 b k).ciphertext = (encrypt C salt2 iv2 b k).ciphertext ↔
        (C.gcmEnc (deriveKey C k salt1) iv1 (C.utf8Encode b)).1 =
          (C.gcmEnc (deriveKey C k salt2) iv2 (C.utf8Encode b)).1) := by
  have hinj : ∀ x y : Bytes, C.b64Encode x = C.b64Encode y → x = y := by
    intro x y hxy
    rw [← hb64 x, ← hb64 y, hxy]
  refine ⟨?_, ?_, ?_⟩
  · show C.b64Encode salt1 ≠ C.b64Encode salt2
    intro heq
    exact hs (hinj _ _ heq)
  · show C.b64Encode iv1 ≠ C.b64Encode iv2
    intro heq
    exact hi (hinj _ _ heq)
  · constructor
    · intro heq
      exact hinj _ _ heq
    · intro heq
      show C.b64Encode (C.gcmEnc (deriveKey C k salt1) iv1 (C.utf8Encode b)).1 =
        C.b64Encode (C.gcmEnc (deriveKey C k salt2) iv2 (C.utf8Encode b)).1
      rw [heq]

/-- C9 witness: on the reference primitives, distinct salts and nonces
yield distinct envelope salt fields. -/
theorem encrypt_fresh_randomness_witness :
    ([(0 : Fin 256)] : Bytes) ≠ [(1 : Fin 256)] ∧
      (encrypt refPrim [(0 : Fin 256)] [(2 : Fin 256)] "x" keyA).salt ≠
        (encrypt refPrim [(1 : Fin 256)] [(3 : Fin 256)] "x" keyA).salt :=
  ⟨by decide,
    (encrypt_fresh_randomness refPrim refPrim_b64_roundtrip
      [(0 : Fin 256)] [(2 : Fin 256)] [(1 : Fin 256)] [(3 : Fin 256)] "x" keyA
      (by decide) (by decide)).1⟩

set_option maxRecDepth 8192 in
/-- C9 counterexample: for the empty plaintext the cipher output is empty
in both runs (GCM ciphertext has exactly the plaintext's length), so the
two envelopes carry identical `ciphertext` fields even though both the
salts and the nonces differ — refuting the claim that distinct randomness
always yields different ciphertext. -/
theorem same_ciphertext_for_empty_plaintext :
    ([(0 : Fin 256)] : Bytes) ≠ [(1 : Fin 256)] ∧
      ([(2 : Fin 256)] : Bytes) ≠ [(3 : Fin 256)] ∧
      (encrypt refPrim [(0 : Fin 256)] [(2 : Fin 256)] "" keyA).ciphertext =
        (encrypt refPrim [(1 : Fin 256)] [(3 : Fin 256)] "" keyA).ciphertext := by
  decide

/-- C10: for a path that does not already end in the reserved suffix, every
file operation of the store resolves the path and its suffixed form to the
same on-disk file: the operations behave identically on `p` and on
`p ++ ".enc"`. -/
theorem enc_path_alias (C : CryptoPrim) (E : EnvCodec) (st : StorageState) (fs : FS)
    (salt iv : Bytes) (p d : String)
    (hp : strEndsWith p ".enc" = false) :
    normalizeEnc (p ++ ".enc") = normalizeEnc p ∧
      writeEncrypted C E st fs salt iv (p ++ ".enc") d =
        writeEncrypted C E st fs salt iv p d ∧
      readEncrypted C E st fs (p ++ ".enc") = readEncrypted C E st fs p ∧
      encryptedFileExists fs (p ++ ".enc") = encryptedFileExists fs p ∧
      deleteEncrypted fs (p ++ ".enc") = deleteEncrypted fs p := by
  have hne : ¬strEndsWith p ".enc" = true := by
    rw [hp]
    exact Bool.false_ne_true
  have hnorm : normalizeEnc (p ++ ".enc") = normalizeEnc p := by
    rw [normalizeEnc, if_pos (strEndsWith_append_enc p)]
    rw [normalizeEnc, if_neg hne]
  refine ⟨hnorm, ?_, ?_, ?_, ?_⟩
  · unfold writeEncrypted
    rw [hnorm]
  · unfold readEncrypted
    rw [hnorm]
  · unfold encryptedFileExists
    rw [hnorm]
  · unfold deleteEncrypted
    rw [hnorm]

/-- C10 witness: the aliasing evaluated at the concrete logical path
"data/users/alice". -/
theorem enc_path_alias_witness :
    strEndsWith "data/users/alice" ".enc" = false ∧
      normalizeEnc ("data/users/alice" ++ ".enc") = normalizeEnc "data/users/alice" :=
  ⟨by decide,
    (enc_path_alias refPrim refEnvCodec stA emptyFS [] [] "data/users/alice" "d"
      (by decide)).1⟩
